import Mathlib

/-!
Verification development for the orionlang bytecode compiler and virtual
machine (github.com/JosueMolinaMorales/orionlang).

Shallow embedding of the Go sources:
  * `internal/code/code.go`      — opcode table, `Make`, `ReadOperands`
  * `internal/compiler/...`      — symbol table, `Compile` (the node subset
                                    the theorems need), `emit`, `addConstant`
  * `internal/vm/vm.go`          — the `Run` dispatch loop and its handlers
  * `internal/vm/frame.go`       — call frames

Go machine integers are embedded as `Int`/`Nat` with explicit `% 2^w` where
the source truncates.  Go slice/array accesses that can panic are embedded as
`Option`-valued reads and writes; a Go runtime panic is the `crash` outcome of
the `Res` monad below, kept distinct from an `error` value returned to the
caller of `Run`.  The `internal/object` package is absent from the snapshot,
so the value model is reconstructed from its uses in the VM and from the
specification (see the doc comments on `Value`, `HashKey` and `typeString`).
-/

namespace Orion

set_option maxRecDepth 16384

/-- Bounds-checked list read at a (possibly negative) Go index.  `none`
corresponds to a Go "index out of range" panic. -/
def listGet (l : List α) (i : Int) : Option α :=
  if i < 0 then none else l.get? i.toNat

/-- Bounds-checked list write at a Go index.  `none` corresponds to a Go
"index out of range" panic. -/
def listSet : List α → Nat → α → Option (List α)
  | [], _, _ => none
  | _ :: t, 0, v => some (v :: t)
  | h :: t, n + 1, v => (listSet t n v).map (h :: ·)

/-- Outcome of running a piece of Go code: a normal result, an `error` value
returned to the caller, or a runtime panic (`crash`). -/
inductive Res (α : Type) where
  | ok (a : α)
  | err (msg : String)
  | crash (msg : String)
deriving Repr

def Res.bind : Res α → (α → Res β) → Res β
  | .ok a, f => f a
  | .err m, _ => .err m
  | .crash m, _ => .crash m

/-! ## internal/code/code.go -/

/-- The closed opcode list, in the declaration (`iota`) order of
`code.go`. -/
inductive Opcode where
  | OpConstant | OpAdd | OpMultiply | OpDivide | OpSubtract
  | OpPop | OpTrue | OpFalse | OpEqual | OpNotEqual | OpGreaterThan
  | OpMinus | OpBang | OpJumpNotTruthy | OpJump | OpNull
  | OpGetGlobal | OpSetGlobal | OpArray | OpHash | OpIndex
  | OpCall | OpReturnValue | OpReturn | OpGetLocal | OpSetLocal
  | OpGetBuiltin
deriving DecidableEq, Repr

/-- Byte value of each opcode (`iota` numbering of the Go const block). -/
def Opcode.toByte : Opcode → Nat
  | .OpConstant => 0 | .OpAdd => 1 | .OpMultiply => 2 | .OpDivide => 3
  | .OpSubtract => 4 | .OpPop => 5 | .OpTrue => 6 | .OpFalse => 7
  | .OpEqual => 8 | .OpNotEqual => 9 | .OpGreaterThan => 10
  | .OpMinus => 11 | .OpBang => 12 | .OpJumpNotTruthy => 13
  | .OpJump => 14 | .OpNull => 15 | .OpGetGlobal => 16 | .OpSetGlobal => 17
  | .OpArray => 18 | .OpHash => 19 | .OpIndex => 20 | .OpCall => 21
  | .OpReturnValue => 22 | .OpReturn => 23 | .OpGetLocal => 24
  | .OpSetLocal => 25 | .OpGetBuiltin => 26

/-- Inverse of `Opcode.toByte`: which opcode a byte denotes, if any. -/
def Opcode.ofByte : Nat → Option Opcode
  | 0 => some .OpConstant | 1 => some .OpAdd | 2 => some .OpMultiply
  | 3 => some .OpDivide | 4 => some .OpSubtract | 5 => some .OpPop
  | 6 => some .OpTrue | 7 => some .OpFalse | 8 => some .OpEqual
  | 9 => some .OpNotEqual | 10 => some .OpGreaterThan | 11 => some .OpMinus
  | 12 => some .OpBang | 13 => some .OpJumpNotTruthy | 14 => some .OpJump
  | 15 => some .OpNull | 16 => some .OpGetGlobal | 17 => some .OpSetGlobal
  | 18 => some .OpArray | 19 => some .OpHash | 20 => some .OpIndex
  | 21 => some .OpCall | 22 => some .OpReturnValue | 23 => some .OpReturn
  | 24 => some .OpGetLocal | 25 => some .OpSetLocal | 26 => some .OpGetBuiltin
  | _ => none

/-- `code.Definition`: opcode name and per-operand byte widths. -/
structure Definition where
  Name : String
  OperandWidths : List Nat
deriving DecidableEq, Repr

/-- The `definitions` table of `code.go`. -/
def definitionOf : Opcode → Definition
  | .OpConstant => ⟨"OpConstant", [2]⟩
  | .OpAdd => ⟨"OpAdd", []⟩
  | .OpPop => ⟨"OpPop", []⟩
  | .OpMultiply => ⟨"OpMultiply", []⟩
  | .OpDivide => ⟨"OpDivide", []⟩
  | .OpSubtract => ⟨"OpSubtract", []⟩
  | .OpFalse => ⟨"OpFalse", []⟩
  | .OpTrue => ⟨"OpTrue", []⟩
  | .OpEqual => ⟨"OpEqual", []⟩
  | .OpNotEqual => ⟨"OpNotEqual", []⟩
  | .OpGreaterThan => ⟨"OpGreaterThan", []⟩
  | .OpMinus => ⟨"OpMinus", []⟩
  | .OpBang => ⟨"OpBang", []⟩
  | .OpJumpNotTruthy => ⟨"OpJumpNotTruthy", [2]⟩
  | .OpJump => ⟨"OpJump", [2]⟩
  | .OpNull => ⟨"OpNull", []⟩
  | .OpSetGlobal => ⟨"OpSetGlobal", [2]⟩
  | .OpGetGlobal => ⟨"OpGetGlobal", [2]⟩
  | .OpArray => ⟨"OpArray", [2]⟩
  | .OpHash => ⟨"OpHash", [2]⟩
  | .OpIndex => ⟨"OpIndex", []⟩
  | .OpCall => ⟨"OpCall", [1]⟩
  | .OpReturnValue => ⟨"OpReturnValue", []⟩
  | .OpReturn => ⟨"OpReturn", []⟩
  | .OpSetLocal => ⟨"OpSetLocal", [1]⟩
  | .OpGetLocal => ⟨"OpGetLocal", [1]⟩
  | .OpGetBuiltin => ⟨"OpGetBuiltin", [1]⟩

/-- Definition lookup by opcode byte (the `definitions[op]` map access used
by `Make`). -/
def lookupDefinition (b : Nat) : Option Definition :=
  (Opcode.ofByte b).map definitionOf

/-- Big-endian bytes of one operand at its declared width, as written by
`Make`: `binary.BigEndian.PutUint16` after a `uint16(o)` conversion for width
2, a `byte(o)` conversion for width 1.  Any other width writes nothing and
leaves the `width` zero bytes of the freshly allocated buffer. -/
def putBytes (width o : Nat) : List Nat :=
  match width with
  | 2 => [o % 65536 / 256, o % 65536 % 256]
  | 1 => [o % 256]
  | w => List.replicate w 0

/-- Operand section of an instruction as `Make` builds it: the buffer is
allocated with `1 + Σ widths` zero bytes and each supplied operand is written
at its width.  (When more operands than widths are supplied the Go source
panics indexing `def.OperandWidths`; the theorems only use matching
lengths.) -/
def encodeOperands : List Nat → List Nat → List Nat
  | [], _ => []
  | w :: ws, [] => List.replicate (w + ws.sum) 0
  | w :: ws, o :: os => putBytes w o ++ encodeOperands ws os

/-- `code.Make`: opcode byte followed by the encoded operands; an unknown
opcode yields the empty byte sequence. -/
def Make (op : Nat) (operands : List Nat) : List Nat :=
  match lookupDefinition op with
  | none => []
  | some def_ => op :: encodeOperands def_.OperandWidths operands

/-- `code.ReadUInt16`: big-endian 16-bit read; `none` is the Go panic on a
short slice. -/
def ReadUInt16 (ins : List Nat) : Option Nat :=
  match ins with
  | b0 :: b1 :: _ => some (b0 * 256 + b1)
  | _ => none

/-- `code.ReadUInt8`; `none` is the Go panic on an empty slice. -/
def ReadUInt8 (ins : List Nat) : Option Nat :=
  match ins with
  | b :: _ => some b
  | _ => none

/-- Operand decoding loop of `ReadOperands` over a width list.  A width
other than 1 or 2 reads nothing, leaving the zero-initialised operand slot,
and still advances the offset. -/
def readOperandsGo : List Nat → List Nat → Option (List Nat × Nat)
  | [], _ => some ([], 0)
  | 2 :: ws, ins =>
    match ReadUInt16 ins with
    | none => none
    | some v =>
      (readOperandsGo ws (ins.drop 2)).map (fun p => (v :: p.1, p.2 + 2))
  | 1 :: ws, ins =>
    match ReadUInt8 ins with
    | none => none
    | some v =>
      (readOperandsGo ws (ins.drop 1)).map (fun p => (v :: p.1, p.2 + 1))
  | w :: ws, ins =>
    (readOperandsGo ws (ins.drop w)).map (fun p => (0 :: p.1, p.2 + w))

/-- `code.ReadOperands`: decode the operands of `def_` from `ins`, returning
the operands and the number of bytes read (`none` is a Go panic on a short
slice). -/
def ReadOperands (def_ : Definition) (ins : List Nat) : Option (List Nat × Nat) :=
  readOperandsGo def_.OperandWidths ins

/-! ## internal/object (absent from the snapshot) -/

/-- Modelled from the spec: `HashKey` is a `(type-tag, 64-bit hash)` pair and
only integers, booleans and strings are hashable (`internal/object` is not in
the snapshot).  The key value is kept directly, so the model's keys are
injective; fnv64a collisions of the Go implementation are not modelled. -/
inductive HashKey where
  | intKey (v : Int)
  | boolKey (b : Bool)
  | strKey (s : String)
deriving DecidableEq, Repr

/-- Modelled from the spec: the tagged value union of `internal/object`
(absent from the snapshot), with exactly the fields the VM and compiler
sources use.  Array elements and hash-pair members are `Option Value`
because Go's `[]object.Object` slots can hold nil interfaces.
`compiledFunction` carries the only field the sources read,
`Instructions`. -/
inductive Value where
  | Integer (v : Int)
  | Boolean (b : Bool)
  | Null
  | Str (s : String)
  | array (elements : List (Option Value))
  | hash (pairs : List (HashKey × Option Value × Option Value))
  | compiledFunction (instructions : List Nat)

/-- Modelled from the spec: each variant's type tag used in error messages
(`internal/object` is not in the snapshot). -/
def typeString : Value → String
  | .Integer _ => "INTEGER"
  | .Boolean _ => "BOOLEAN"
  | .Null => "NULL"
  | .Str _ => "STRING"
  | .array _ => "ARRAY"
  | .hash _ => "HASH"
  | .compiledFunction _ => "COMPILED_FUNCTION_OBJ"

/-- Modelled from the spec: `object.Hashable` — the hash key of a value,
`none` when the value is not hashable. -/
def hashKeyOf : Value → Option HashKey
  | .Integer v => some (.intKey v)
  | .Boolean b => some (.boolKey b)
  | .Str s => some (.strKey s)
  | _ => none

/-! ## internal/compiler: symbol table (src/unnamed/part_002) -/

def GlobalScope : String := "GLOBAL"
def LocalScope : String := "LOCAL"
def BuiltinScope : String := "BUILTIN"

/-- `compiler.Symbol`. -/
structure Symbol where
  Name : String
  Scope : String
  Index : Nat
deriving DecidableEq, Repr

/-- `compiler.SymbolTable`: `root` has `Outer == nil`, `enclosed` carries the
outer table.  The `store` map is an association list (later `Define`s of the
same name replace the entry). -/
inductive SymbolTable where
  | root (store : List (String × Symbol)) (numDefinitions : Nat)
  | enclosed (outer : SymbolTable) (store : List (String × Symbol))
      (numDefinitions : Nat)

/-- Map update: replace the binding for `name` or append it. -/
def storeInsert (name : String) (sym : Symbol) :
    List (String × Symbol) → List (String × Symbol)
  | [] => [(name, sym)]
  | (n, s) :: t =>
    if n = name then (n, sym) :: t else (n, s) :: storeInsert name sym t

def storeLookup (name : String) : List (String × Symbol) → Option Symbol
  | [] => none
  | (n, s) :: t => if n = name then some s else storeLookup name t

def SymbolTable.store : SymbolTable → List (String × Symbol)
  | .root st _ => st
  | .enclosed _ st _ => st

def SymbolTable.numDefinitions : SymbolTable → Nat
  | .root _ n => n
  | .enclosed _ _ n => n

def SymbolTable.outerOf : SymbolTable → Option SymbolTable
  | .root _ _ => none
  | .enclosed o _ _ => some o

/-- `NewSymbolTable`. -/
def NewSymbolTable : SymbolTable := .root [] 0

/-- `NewEnclosedSymbolTable`. -/
def NewEnclosedSymbolTable (outer : SymbolTable) : SymbolTable :=
  .enclosed outer [] 0

/-- `SymbolTable.Define`: index is `numDefinitions`, scope Global iff the
table has no outer; returns the symbol and the updated table. -/
def Define (s : SymbolTable) (name : String) : Symbol × SymbolTable :=
  match s with
  | .root st n =>
    let symbol : Symbol := ⟨name, GlobalScope, n⟩
    (symbol, .root (storeInsert name symbol st) (n + 1))
  | .enclosed o st n =>
    let symbol : Symbol := ⟨name, LocalScope, n⟩
    (symbol, .enclosed o (storeInsert name symbol st) (n + 1))

/-- `SymbolTable.DefineBuiltin`: caller-assigned index, `numDefinitions`
untouched. -/
def DefineBuiltin (s : SymbolTable) (index : Nat) (name : String) :
    Symbol × SymbolTable :=
  let symbol : Symbol := ⟨name, BuiltinScope, index⟩
  match s with
  | .root st n => (symbol, .root (storeInsert name symbol st) n)
  | .enclosed o st n => (symbol, .enclosed o (storeInsert name symbol st) n)

/-- `SymbolTable.Resolve`: local lookup, else recurse into the outer table;
the result of the outer chain is returned unchanged.  (The source has no
Free scope and no `DefineFree`; `Resolve` performs no conversion and no
mutation.) -/
def Resolve : SymbolTable → String → Option Symbol
  | .root st _, name => storeLookup name st
  | .enclosed o st _, name =>
    match storeLookup name st with
    | some sym => some sym
    | none => Resolve o name

/-! ## internal/ast (subset) and internal/compiler/compiler.go -/

/-- Go's `<` on strings: lexicographic comparison, embedded on the
character lists (byte-level UTF-8 comparison and code-point comparison
agree on the ASCII node texts involved here). -/
def goCharListLt : List Char → List Char → Bool
  | [], [] => false
  | [], _ :: _ => true
  | _ :: _, [] => false
  | a :: as, b :: bs =>
    if a.val.toNat < b.val.toNat then true
    else if b.val.toNat < a.val.toNat then false
    else goCharListLt as bs

/-- Go's `<` on strings. -/
def goStringLt (a b : String) : Bool :=
  goCharListLt a.data b.data

theorem goCharListLt_asymm : ∀ (as bs : List Char),
    goCharListLt as bs = true → goCharListLt bs as = false := by
  intro as
  induction as with
  | nil =>
    intro bs h
    cases bs with
    | nil => simp [goCharListLt] at h
    | cons b t => simp [goCharListLt]
  | cons a as ih =>
    intro bs h
    cases bs with
    | nil => simp [goCharListLt] at h
    | cons b t =>
      simp only [goCharListLt] at h ⊢
      by_cases h1 : a.val.toNat < b.val.toNat
      · rw [if_neg (by omega), if_pos h1]
      · by_cases h2 : b.val.toNat < a.val.toNat
        · rw [if_neg h1, if_pos h2] at h
          cases h
        · rw [if_neg h1, if_neg h2] at h
          rw [if_neg h2, if_neg h1]
          exact ih t h

theorem goCharListLt_trans : ∀ (as bs cs : List Char),
    goCharListLt as bs = true → goCharListLt bs cs = true →
    goCharListLt as cs = true := by
  intro as
  induction as with
  | nil =>
    intro bs cs h1 h2
    cases bs with
    | nil => simp [goCharListLt] at h1
    | cons b t =>
      cases cs with
      | nil => simp [goCharListLt] at h2
      | cons c u => simp [goCharListLt]
  | cons a as ih =>
    intro bs cs h1 h2
    cases bs with
    | nil => simp [goCharListLt] at h1
    | cons b t =>
      cases cs with
      | nil => simp [goCharListLt] at h2
      | cons c u =>
        simp only [goCharListLt] at h1 h2 ⊢
        by_cases hab : a.val.toNat < b.val.toNat
        · by_cases hbc : b.val.toNat < c.val.toNat
          · rw [if_pos (by omega)]
          · by_cases hcb : c.val.toNat < b.val.toNat
            · rw [if_neg hbc, if_pos hcb] at h2
              cases h2
            · rw [if_pos (by omega)]
        · by_cases hba : b.val.toNat < a.val.toNat
          · rw [if_neg hab, if_pos hba] at h1
            cases h1
          · rw [if_neg hab, if_neg hba] at h1
            by_cases hbc : b.val.toNat < c.val.toNat
            · rw [if_pos (by omega)]
            · by_cases hcb : c.val.toNat < b.val.toNat
              · rw [if_neg hbc, if_pos hcb] at h2
                cases h2
              · rw [if_neg hbc, if_neg hcb] at h2
                rw [if_neg (by omega), if_neg (by omega)]
                exact ih t u h1 h2

theorem goCharListLt_connex : ∀ (as bs : List Char),
    goCharListLt as bs = false → goCharListLt bs as = false → as = bs := by
  intro as
  induction as with
  | nil =>
    intro bs h1 _
    cases bs with
    | nil => rfl
    | cons b t => simp [goCharListLt] at h1
  | cons a as ih =>
    intro bs h1 h2
    cases bs with
    | nil => simp [goCharListLt] at h2
    | cons b t =>
      simp only [goCharListLt] at h1 h2
      by_cases hab : a.val.toNat < b.val.toNat
      · rw [if_pos hab] at h1
        cases h1
      · by_cases hba : b.val.toNat < a.val.toNat
        · rw [if_pos hba] at h2
          cases h2
        · rw [if_neg hab, if_neg hba] at h1
          have ha : a = b := Char.ext (UInt32.toNat.inj (by omega))
          rw [if_neg hba, if_neg hab] at h2
          rw [ha, ih t h1 h2]

theorem goStringLt_asymm (a b : String) :
    goStringLt a b = true → goStringLt b a = false :=
  goCharListLt_asymm a.data b.data

theorem goStringLt_trans (a b c : String) :
    goStringLt a b = true → goStringLt b c = true → goStringLt a c = true :=
  goCharListLt_trans a.data b.data c.data

theorem goStringLt_connex (a b : String) :
    goStringLt a b = false → goStringLt b a = false → a = b := by
  intro h1 h2
  have := goCharListLt_connex a.data b.data h1 h2
  cases a
  cases b
  exact congrArg String.mk this

/-- Flat expression nodes — the subset of `ast.Expression` the theorems
need (integer/boolean/string literals and identifiers).  An
`ast.IntegerLiteral` carries both its parsed value and its token's literal
text, which its `String()` form returns. -/
inductive Prim where
  | integerLit (value : Int) (lit : String)
  | boolean (value : Bool)
  | stringLit (value : String)
  | identifier (value : String)
deriving DecidableEq, Repr

/-- `String()` form of a flat node.  `Identifier.String` returns the name
(src/unnamed/part_000); the remaining forms are modelled from the spec
("each node has a `String()` form used for hash-literal key ordering"),
returning the literal's token text. -/
def primString : Prim → String
  | .integerLit _ lit => lit
  | .boolean b => if b then "true" else "false"
  | .stringLit s => s
  | .identifier n => n

/-- Expression nodes: a flat node or a hash literal whose keys and values
are flat nodes (the subset the theorems need). -/
inductive Expr where
  | prim (p : Prim)
  | hashLit (pairs : List (Prim × Prim))

/-- Statement nodes used by the theorems. -/
inductive Stmt where
  | letStmt (name : String) (value : Expr)
  | exprStmt (e : Expr)

/-- `compiler.EmittedInstruction` (opcode byte, byte position). -/
structure EmittedInstruction where
  Opcode : Nat
  Position : Nat
deriving DecidableEq, Repr

/-- `compiler.Compiler`: growing instruction buffer, constant pool,
last/previous emitted instruction, symbol table. -/
structure Compiler where
  instructions : List Nat
  constants : List Value
  lastInstruction : EmittedInstruction
  previousInstruction : EmittedInstruction
  symbolTable : SymbolTable

/-- `compiler.New`. -/
def CompilerNew : Compiler :=
  ⟨[], [], ⟨0, 0⟩, ⟨0, 0⟩, NewSymbolTable⟩

/-- `addConstant`: append, return the new index. -/
def addConstant (c : Compiler) (obj : Value) : Nat × Compiler :=
  (c.constants.length, { c with constants := c.constants ++ [obj] })

/-- `addInstruction`: append bytes, return the position of the new
instruction. -/
def addInstruction (c : Compiler) (ins : List Nat) : Nat × Compiler :=
  (c.instructions.length, { c with instructions := c.instructions ++ ins })

/-- `setLastInstruction`. -/
def setLastInstruction (c : Compiler) (op : Nat) (pos : Nat) : Compiler :=
  { c with previousInstruction := c.lastInstruction,
           lastInstruction := ⟨op, pos⟩ }

/-- `emit`: encode via `Make`, append, record last/previous. -/
def emit (c : Compiler) (op : Nat) (operands : List Nat) : Compiler :=
  let ins := Make op operands
  let (pos, c) := addInstruction c ins
  setLastInstruction c op pos

/-- Sorting relation of the `HashLiteral` case: ascending `String()` form of
the key expression (`sort.Slice(keys, keys[i].String() < keys[j].String())`;
the non-strict form — the following element is not less than the current —
is what a sorted permutation satisfies). -/
abbrev pairLE (p q : Prim × Prim) : Prop :=
  goStringLt (primString q.1) (primString p.1) = false

instance : DecidableRel pairLE := fun p q =>
  inferInstanceAs (Decidable (goStringLt (primString q.1) (primString p.1) = false))

instance : IsTotal (Prim × Prim) pairLE :=
  ⟨fun p q => by
    cases hv : goStringLt (primString q.1) (primString p.1) with
    | false => exact Or.inl hv
    | true => exact Or.inr (goStringLt_asymm _ _ hv)⟩

instance : IsTrans (Prim × Prim) pairLE :=
  ⟨fun p q r h1 h2 => by
    have h1' : goStringLt (primString q.1) (primString p.1) = false := h1
    have h2' : goStringLt (primString r.1) (primString q.1) = false := h2
    show goStringLt (primString r.1) (primString p.1) = false
    cases hv : goStringLt (primString r.1) (primString p.1) with
    | false => rfl
    | true =>
      cases hqr : goStringLt (primString q.1) (primString r.1) with
      | true =>
        have ht := goStringLt_trans _ _ _ hqr hv
        rw [h1'] at ht
        exact Bool.noConfusion ht
      | false =>
        have heq := goStringLt_connex _ _ hqr h2'
        rw [heq, hv] at h1'
        exact Bool.noConfusion h1'⟩

/-- `Compile` on a flat expression node, mirroring the corresponding cases
of `compiler.Compile` (constants are interned by appending; identifiers are
resolved and always loaded with `OpGetGlobal`). -/
def compilePrim (c : Compiler) (p : Prim) : Except String Compiler :=
  match p with
  | .integerLit v _ =>
    let (idx, c) := addConstant c (.Integer v)
    .ok (emit c 0 [idx])
  | .stringLit s =>
    let (idx, c) := addConstant c (.Str s)
    .ok (emit c 0 [idx])
  | .boolean b =>
    if b then .ok (emit c 6 []) else .ok (emit c 7 [])
  | .identifier name =>
    match Resolve c.symbolTable name with
    | none => .error ("undefined variable " ++ name)
    | some symbol => .ok (emit c 16 [symbol.Index])

/-- Key-sorted pair compilation loop of the `HashLiteral` case: for each
pair, compile the key then the value. -/
def compilePairs (c : Compiler) : List (Prim × Prim) → Except String Compiler
  | [] => .ok c
  | (k, v) :: rest =>
    match compilePrim c k with
    | .error e => .error e
    | .ok c =>
      match compilePrim c v with
      | .error e => .error e
      | .ok c => compilePairs c rest

/-- `Compile` on an expression.  The `HashLiteral` case sorts the pairs by
the key's `String()` form and emits `OpHash (2·N)`; the pair list stands for
the iteration order of the node's Go map. -/
def compileExpr (c : Compiler) : Expr → Except String Compiler
  | .prim p => compilePrim c p
  | .hashLit pairs =>
    let sorted := List.insertionSort pairLE pairs
    match compilePairs c sorted with
    | .error e => .error e
    | .ok c => .ok (emit c 19 [pairs.length * 2])

/-- `Compile` on a statement.  The `LetStatement` case compiles the value,
then calls `Define`, then always emits `OpSetGlobal` with the symbol's index
(the source has no `OpSetLocal` emission). -/
def compileStmt (c : Compiler) : Stmt → Except String Compiler
  | .letStmt name value =>
    match compileExpr c value with
    | .error e => .error e
    | .ok c =>
      let (symbol, st) := Define c.symbolTable name
      .ok (emit { c with symbolTable := st } 17 [symbol.Index])
  | .exprStmt e =>
    match compileExpr c e with
    | .error e => .error e
    | .ok c => .ok (emit c 5 [])

/-! ## internal/vm/frame.go and internal/vm/vm.go -/

def StackSize : Nat := 2046
def GlobalsSize : Nat := 65536
def MaxFrames : Nat := 1024

/-- `vm.Frame`: the referenced function's instructions and the frame's
instruction pointer (initialised to -1).  The snapshot's `frame.go` has no
base pointer field. -/
structure Frame where
  fn : List Nat
  ip : Int

/-- `vm.NewFrame`. -/
def NewFrame (fn : List Nat) : Frame := ⟨fn, -1⟩

/-- `vm.VM`: constants, fixed-size value stack with `sp` one past the top,
globals, fixed-size frame stack with `framesIndex` one past the current
frame.  Stack, globals and frame slots hold `Option`s because the Go slices
are allocated with nil entries. -/
structure VMState where
  constants : List Value
  stack : List (Option Value)
  sp : Nat
  globals : List (Option Value)
  frames : List (Option Frame)
  framesIndex : Nat

/-- `compiler.Bytecode`. -/
structure Bytecode where
  Instructions : List Nat
  Constants : List Value

/-- `vm.New`: wrap the top-level instructions in a main function, push it as
frame 0 with `ip = -1`. -/
def VMNew (bytecode : Bytecode) : VMState :=
  { constants := bytecode.Constants
    stack := List.replicate StackSize none
    sp := 0
    globals := List.replicate GlobalsSize none
    frames := some (NewFrame bytecode.Instructions)
      :: List.replicate (MaxFrames - 1) none
    framesIndex := 1 }

/-- `vm.currentFrame`: `frames[framesIndex-1]`; `none` merges the Go panics
of an out-of-range index and of dereferencing a nil frame pointer. -/
def currentFrame (s : VMState) : Option Frame :=
  match listGet s.frames ((s.framesIndex : Int) - 1) with
  | some (some f) => some f
  | _ => none

/-- Overwrite the current frame's `ip` (the source mutates the frame through
its pointer). -/
def setIp (s : VMState) (ip : Int) : VMState :=
  match s.framesIndex with
  | 0 => s
  | n + 1 =>
    match listGet s.frames (n : Int) with
    | some (some f) =>
      match listSet s.frames n (some { f with ip := ip }) with
      | some fr => { s with frames := fr }
      | none => s
    | _ => s

/-- `vm.push`: checked against `StackSize`, then writes `stack[sp]`. -/
def push (s : VMState) (o : Option Value) : Res VMState :=
  if s.sp ≥ StackSize then .err "stack overflow"
  else
    match listSet s.stack s.sp o with
    | none => .crash "index out of range"
    | some st => .ok { s with stack := st, sp := s.sp + 1 }

/-- `vm.pop`: reads `stack[sp-1]` (a Go panic when `sp = 0`), decrements
`sp`. -/
def pop (s : VMState) : Res (Option Value × VMState) :=
  match listGet s.stack ((s.sp : Int) - 1) with
  | none => .crash "index out of range"
  | some o => .ok (o, { s with sp := s.sp - 1 })

/-- `vm.pushFrame`: unchecked write of `frames[framesIndex]` — at
`framesIndex = MaxFrames` the Go source panics with index out of range. -/
def pushFrame (s : VMState) (f : Frame) : Res VMState :=
  match listSet s.frames s.framesIndex (some f) with
  | none => .crash "index out of range"
  | some fr => .ok { s with frames := fr, framesIndex := s.framesIndex + 1 }

/-- `vm.popFrame`: decrement `framesIndex` and read the popped frame (a Go
panic when `framesIndex` is already 0). -/
def popFrame (s : VMState) : Res (Frame × VMState) :=
  match s.framesIndex with
  | 0 => .crash "index out of range"
  | n + 1 =>
    match listGet s.frames (n : Int) with
    | some (some f) => .ok (f, { s with framesIndex := n })
    | _ => .crash "index out of range"

/-- `vm.nativeBoolToBooleanObject`. -/
def nativeBoolToBooleanObject (input : Bool) : Value := .Boolean input

/-- `vm.isTruthy`: false exactly for the Boolean false and Null; a nil
object hits the Go type switch's default case and is truthy. -/
def isTruthy : Option Value → Bool
  | some (.Boolean b) => b
  | some .Null => false
  | none => true
  | some _ => true

/-- Go interface equality `right == left` as the comparison fallback uses
it.  Booleans and Null are canonical singletons, so their comparison is by
value; nil equals nil.  Any other pair compares by pointer identity, which
for the heap values reachable here (freshly built or distinct constants) is
false; aliasing of the same heap object is not modelled, and no theorem
depends on this branch. -/
def objectIdentityEq : Option Value → Option Value → Bool
  | some (.Boolean a), some (.Boolean b) => a == b
  | some .Null, some .Null => true
  | none, none => true
  | _, _ => false

/-- `vm.executeIntegerComparison`. -/
def executeIntegerComparison (s : VMState) (op : Nat) (leftValue rightValue : Int) :
    Res VMState :=
  match op with
  | 8 => push s (some (nativeBoolToBooleanObject (rightValue == leftValue)))
  | 9 => push s (some (nativeBoolToBooleanObject (rightValue != leftValue)))
  | 10 => push s (some (nativeBoolToBooleanObject (leftValue > rightValue)))
  | _ => .err ("unknown operator: " ++ toString op)

/-- `vm.executeComparisonOperation`: pop right then left; integers compare
by value, otherwise `OpEqual`/`OpNotEqual` compare identity and any other
opcode is an unknown-operator error.  A nil operand crashes on the `Type()`
call. -/
def executeComparisonOperation (s : VMState) (op : Nat) : Res VMState :=
  Res.bind (pop s) fun (right, s) =>
  Res.bind (pop s) fun (left, s) =>
  match left, right with
  | some l, some r =>
    match l, r with
    | .Integer lv, .Integer rv => executeIntegerComparison s op lv rv
    | _, _ =>
      match op with
      | 8 => push s (some (nativeBoolToBooleanObject (objectIdentityEq right left)))
      | 9 => push s (some (nativeBoolToBooleanObject (!objectIdentityEq right left)))
      | _ => .err ("unknown operator: " ++ toString op ++ " (" ++
          typeString l ++ " " ++ typeString r ++ ")")
  | _, _ => .crash "nil pointer dereference"

/-- Go `int64` two's-complement wrapping: reduce an exact integer result
to the representative in `[-2^63, 2^63)`.  Addition, subtraction,
multiplication and negation wrap on overflow, and `MinInt64 / -1` wraps
back to `MinInt64` (the only quotient outside the range). -/
def wrap64 (n : Int) : Int :=
  (n + 2 ^ 63) % 2 ^ 64 - 2 ^ 63

/-- `vm.executeBinaryIntegerOperation`: add/subtract/multiply/divide on the
two `int64` values, with Go's two's-complement wrapping on overflow.
Go's `/` truncates toward zero (`Int.tdiv`); a zero divisor panics —
there is no division-by-zero check in the source — and `MinInt64 / -1`
wraps to `MinInt64`. -/
def executeBinaryIntegerOperation (s : VMState) (op : Nat) (leftValue rightValue : Int) :
    Res VMState :=
  match op with
  | 1 => push s (some (.Integer (wrap64 (leftValue + rightValue))))
  | 4 => push s (some (.Integer (wrap64 (leftValue - rightValue))))
  | 2 => push s (some (.Integer (wrap64 (leftValue * rightValue))))
  | 3 =>
    if rightValue = 0 then .crash "integer divide by zero"
    else push s (some (.Integer (wrap64 (leftValue.tdiv rightValue))))
  | _ => .err ("unknown integer operator: " ++ toString op)

/-- `vm.executeBinaryStringOperation`: only `OpAdd` concatenates. -/
def executeBinaryStringOperation (s : VMState) (op : Nat) (leftValue rightValue : String) :
    Res VMState :=
  if op ≠ 1 then .err ("unknown string operator: " ++ toString op)
  else push s (some (.Str (leftValue ++ rightValue)))

/-- `vm.executeBinaryOperation`: pop right then left and dispatch on the
operand types; a nil operand crashes on the `Type()` call. -/
def executeBinaryOperation (s : VMState) (op : Nat) : Res VMState :=
  Res.bind (pop s) fun (right, s) =>
  Res.bind (pop s) fun (left, s) =>
  match left, right with
  | some l, some r =>
    match l, r with
    | .Integer lv, .Integer rv => executeBinaryIntegerOperation s op lv rv
    | .Str lv, .Str rv => executeBinaryStringOperation s op lv rv
    | _, _ => .err ("unsupported types for binary operation: " ++
        typeString l ++ " " ++ typeString r)
  | _, _ => .crash "nil pointer dereference"

/-- `vm.executeBangOperator`: pointer-identity switch against the canonical
`True`, `False` and `Null` singletons; any other operand (a nil one
included) pushes False. -/
def executeBangOperator (s : VMState) : Res VMState :=
  Res.bind (pop s) fun (operand, s) =>
  match operand with
  | some (.Boolean true) => push s (some (.Boolean false))
  | some (.Boolean false) => push s (some (.Boolean true))
  | some .Null => push s (some (.Boolean true))
  | _ => push s (some (.Boolean false))

/-- `vm.executeMinusOperator` (Go `int64` negation wraps: `-MinInt64` is
`MinInt64`). -/
def executeMinusOperator (s : VMState) : Res VMState :=
  Res.bind (pop s) fun (operand, s) =>
  match operand with
  | none => .crash "nil pointer dereference"
  | some (.Integer v) => push s (some (.Integer (wrap64 (-v))))
  | some o => .err ("unsupported type for negation: " ++ typeString o)

/-- `vm.executeArrayIndex`: out-of-range indices push Null, in-range indices
push the element. -/
def executeArrayIndex (s : VMState) (elements : List (Option Value)) (i : Int) :
    Res VMState :=
  let max : Int := (elements.length : Int) - 1
  if i < 0 ∨ i > max then push s (some .Null)
  else
    match listGet elements i with
    | none => .crash "index out of range"
    | some e => push s e

/-- Association-list lookup in a hash's pairs. -/
def pairsLookup (k : HashKey) :
    List (HashKey × Option Value × Option Value) → Option (Option Value × Option Value)
  | [] => none
  | (k', p) :: t => if k' = k then some p else pairsLookup k t

/-- Association-list insert-or-replace for a hash's pairs (Go map
assignment). -/
def pairsInsert (k : HashKey) (p : Option Value × Option Value) :
    List (HashKey × Option Value × Option Value) →
    List (HashKey × Option Value × Option Value)
  | [] => [(k, p)]
  | (k', p') :: t =>
    if k' = k then (k', p) :: t else (k', p') :: pairsInsert k p t

/-- `vm.executeHashIndex`: an unhashable index is a runtime error (a nil one
crashes formatting the message), a missing key pushes Null, a present key
pushes the pair's value. -/
def executeHashIndex (s : VMState)
    (pairs : List (HashKey × Option Value × Option Value)) (index : Option Value) :
    Res VMState :=
  match index with
  | none => .crash "nil pointer dereference"
  | some v =>
    match hashKeyOf v with
    | none => .err ("unusable as hash key: " ++ typeString v)
    | some hk =>
      match pairsLookup hk pairs with
      | none => push s (some .Null)
      | some pair => push s pair.2

/-- `vm.executeIndexExpression`: arrays with integer indices, hashes, and
otherwise an unsupported-operator error (evaluation order of the Go `Type()`
calls preserved for the crash cases). -/
def executeIndexExpression (s : VMState) (left index : Option Value) : Res VMState :=
  match left with
  | none => .crash "nil pointer dereference"
  | some (.array elements) =>
    match index with
    | none => .crash "nil pointer dereference"
    | some (.Integer i) => executeArrayIndex s elements i
    | some _ => .err "index operator not supported: ARRAY"
  | some (.hash pairs) => executeHashIndex s pairs index
  | some l => .err ("index operator not supported: " ++ typeString l)

/-- `vm.buildArray`: read `stack[startIndex .. endIndex)`; a negative start
is a Go panic. -/
def buildArray (stack : List (Option Value)) (startIndex endIndex : Int) :
    Res (List (Option Value)) :=
  if h : startIndex < endIndex then
    match listGet stack startIndex with
    | none => .crash "index out of range"
    | some e =>
      Res.bind (buildArray stack (startIndex + 1) endIndex) fun rest =>
        .ok (e :: rest)
  else .ok []
termination_by (endIndex - startIndex).toNat
decreasing_by
  omega

/-- `vm.buildHash`: read key/value pairs at stride 2, requiring each key to
be hashable (a nil key crashes formatting the error message). -/
def buildHash (stack : List (Option Value)) (startIndex endIndex : Int)
    (acc : List (HashKey × Option Value × Option Value)) :
    Res (List (HashKey × Option Value × Option Value)) :=
  if h : startIndex < endIndex then
    match listGet stack startIndex, listGet stack (startIndex + 1) with
    | some key, some value =>
      match key with
      | none => .crash "nil pointer dereference"
      | some kv =>
        match hashKeyOf kv with
        | none => .err ("unusable has hash key: " ++ typeString kv)
        | some hk =>
          buildHash stack (startIndex + 2) endIndex
            (pairsInsert hk (key, value) acc)
    | _, _ => .crash "index out of range"
  else .ok acc
termination_by (endIndex - startIndex).toNat
decreasing_by
  omega

/-- Control outcome of one iteration of the `Run` loop. -/
inductive RunCtl where
  | next (s : VMState)
  | halt
  | retNil
  | retErr (msg : String)
  | crashed (msg : String)

/-- Propagating conversion: a handler error becomes `Run`'s return value
(`if err != nil { return err }`). -/
def propagate : Res VMState → RunCtl
  | .ok s => .next s
  | .err m => .retErr m
  | .crash m => .crashed m

/-- Swallowing conversion: the `OpEqual`/`OpNotEqual`/`OpGreaterThan` and
`OpBang` branches of `Run` contain `if err != nil { return nil }`, so a
handler error terminates `Run` with a nil error. -/
def swallow : Res VMState → RunCtl
  | .ok s => .next s
  | .err _ => .retNil
  | .crash m => .crashed m

/-- The `OpCall` case of `Run`: the callee is read from `stack[sp-1]` (the
operand byte is neither read nor skipped); a compiled function is pushed as
a new frame with `ip = -1` and `sp` left unchanged; anything else is a
"calling non-function" error.  There is no arity check and no base
pointer. -/
def execOpCall (s : VMState) : RunCtl :=
  match listGet s.stack ((s.sp : Int) - 1) with
  | none => .crashed "index out of range"
  | some entry =>
    match entry with
    | some (.compiledFunction ins) => propagate (pushFrame s (NewFrame ins))
    | _ => .retErr "calling non-function"

/-- Read the 16-bit operand at `ins[ip+1:]`. -/
def operand16 (ins : List Nat) (ip : Int) : Option Nat :=
  ReadUInt16 (ins.drop (ip + 1).toNat)

/-- One dispatch of the fetched opcode byte `op` at instruction pointer
`ip` (already pre-incremented and pointing at `op` within `ins`).  Opcode
bytes without a case in the source's switch (`OpGetLocal`, `OpSetLocal`,
`OpGetBuiltin` and unknown bytes) fall through as no-ops. -/
def execInstr (s : VMState) (ins : List Nat) (ip : Int) (op : Nat) : RunCtl :=
  match op with
  | 0 =>      -- OpConstant
    match operand16 ins ip with
    | none => .crashed "index out of range"
    | some constIndex =>
      let s := setIp s (ip + 2)
      match listGet s.constants (constIndex : Int) with
      | none => .crashed "index out of range"
      | some c => propagate (push s (some c))
  | 5 =>      -- OpPop
    match pop s with
    | .ok (_, s) => .next s
    | .err m => .retErr m
    | .crash m => .crashed m
  | 1 | 2 | 3 | 4 =>   -- OpAdd, OpMultiply, OpDivide, OpSubtract
    propagate (executeBinaryOperation s op)
  | 8 | 9 | 10 =>      -- OpEqual, OpNotEqual, OpGreaterThan: errors swallowed
    swallow (executeComparisonOperation s op)
  | 6 =>      -- OpTrue
    propagate (push s (some (.Boolean true)))
  | 7 =>      -- OpFalse
    propagate (push s (some (.Boolean false)))
  | 12 =>     -- OpBang: errors swallowed
    swallow (executeBangOperator s)
  | 11 =>     -- OpMinus
    propagate (executeMinusOperator s)
  | 14 =>     -- OpJump
    match operand16 ins ip with
    | none => .crashed "index out of range"
    | some pos => .next (setIp s ((pos : Int) - 1))
  | 13 =>     -- OpJumpNotTruthy
    match operand16 ins ip with
    | none => .crashed "index out of range"
    | some pos =>
      let s := setIp s (ip + 2)
      match pop s with
      | .err m => .retErr m
      | .crash m => .crashed m
      | .ok (condition, s) =>
        if !isTruthy condition then .next (setIp s ((pos : Int) - 1))
        else .next s
  | 15 =>     -- OpNull
    propagate (push s (some .Null))
  | 17 =>     -- OpSetGlobal
    match operand16 ins ip with
    | none => .crashed "index out of range"
    | some globalIndex =>
      let s := setIp s (ip + 2)
      match pop s with
      | .err m => .retErr m
      | .crash m => .crashed m
      | .ok (v, s) =>
        match listSet s.globals globalIndex v with
        | none => .crashed "index out of range"
        | some g => .next { s with globals := g }
  | 16 =>     -- OpGetGlobal
    match operand16 ins ip with
    | none => .crashed "index out of range"
    | some globalIndex =>
      let s := setIp s (ip + 2)
      match listGet s.globals (globalIndex : Int) with
      | none => .crashed "index out of range"
      | some v => propagate (push s v)
  | 18 =>     -- OpArray
    match operand16 ins ip with
    | none => .crashed "index out of range"
    | some numElements =>
      let s := setIp s (ip + 2)
      match buildArray s.stack ((s.sp : Int) - numElements) (s.sp : Int) with
      | .err m => .retErr m
      | .crash m => .crashed m
      | .ok elements =>
        let s := { s with sp := s.sp - numElements }
        propagate (push s (some (.array elements)))
  | 19 =>     -- OpHash
    match operand16 ins ip with
    | none => .crashed "index out of range"
    | some numElements =>
      let s := setIp s (ip + 2)
      match buildHash s.stack ((s.sp : Int) - numElements) (s.sp : Int) [] with
      | .err m => .retErr m
      | .crash m => .crashed m
      | .ok pairs =>
        let s := { s with sp := s.sp - numElements }
        propagate (push s (some (.hash pairs)))
  | 20 =>     -- OpIndex
    match pop s with
    | .err m => .retErr m
    | .crash m => .crashed m
    | .ok (index, s) =>
      match pop s with
      | .err m => .retErr m
      | .crash m => .crashed m
      | .ok (left, s) => propagate (executeIndexExpression s left index)
  | 21 =>     -- OpCall
    execOpCall s
  | 22 =>     -- OpReturnValue
    match pop s with
    | .err m => .retErr m
    | .crash m => .crashed m
    | .ok (returnValue, s) =>
      match popFrame s with
      | .err m => .retErr m
      | .crash m => .crashed m
      | .ok (_, s) =>
        match pop s with
        | .err m => .retErr m
        | .crash m => .crashed m
        | .ok (_, s) => propagate (push s returnValue)
  | 23 =>     -- OpReturn
    match popFrame s with
    | .err m => .retErr m
    | .crash m => .crashed m
    | .ok (_, s) =>
      match pop s with
      | .err m => .retErr m
      | .crash m => .crashed m
      | .ok (_, s) => propagate (push s (some .Null))
  | _ => .next s

/-- One iteration of the `Run` loop: test the loop condition
`currentFrame.ip < len(instructions) - 1`, pre-increment `ip`, fetch the
opcode byte, dispatch. -/
def runStep (s : VMState) : RunCtl :=
  match currentFrame s with
  | none => .crashed "index out of range"
  | some f =>
    if f.ip < (f.fn.length : Int) - 1 then
      let s := setIp s (f.ip + 1)
      match f.fn.get? (f.ip + 1).toNat with
      | none => .crashed "index out of range"
      | some op => execInstr s f.fn (f.ip + 1) op
    else .halt

/-- Result of `vm.Run`: a nil return, a returned error, or a Go panic. -/
inductive RunOut where
  | done
  | errored (msg : String)
  | crashed (msg : String)
  | fuelOut
deriving DecidableEq, Repr

/-- `vm.Run`, fuel-bounded: iterate `runStep` until the loop exits (`Run`
returns nil), a branch returns nil early (the swallowed-error paths), an
error is returned, or the Go runtime panics. -/
def run : Nat → VMState → RunOut
  | 0, _ => .fuelOut
  | fuel + 1, s =>
    match runStep s with
    | .next s' => run fuel s'
    | .halt => .done
    | .retNil => .done
    | .retErr m => .errored m
    | .crashed m => .crashed m

/-! ## Supporting lemmas -/

theorem listSet_of_lt (l : List α) (n : Nat) (v : α) (h : n < l.length) :
    listSet l n v = some (l.set n v) := by
  induction l generalizing n with
  | nil => simp at h
  | cons a t ih =>
    cases n with
    | zero => rfl
    | succ m =>
      simp only [listSet, List.set]
      rw [ih m (by simpa using h)]
      rfl

theorem listSet_of_ge (l : List α) (n : Nat) (v : α) (h : l.length ≤ n) :
    listSet l n v = none := by
  induction l generalizing n with
  | nil => rfl
  | cons a t ih =>
    cases n with
    | zero => simp at h
    | succ m =>
      simp only [listSet]
      rw [ih m (by simpa using h)]
      rfl

theorem push_ok (s : VMState) (o : Option Value) (h1 : s.sp < StackSize)
    (h2 : s.sp < s.stack.length) :
    push s o = .ok { s with stack := s.stack.set s.sp o, sp := s.sp + 1 } := by
  unfold push
  rw [if_neg (by omega), listSet_of_lt _ _ _ h2]

theorem lookupDefinition_toByte (op : Opcode) :
    lookupDefinition op.toByte = some (definitionOf op) := by
  cases op <;> rfl

theorem operandWidths_shape (op : Opcode) :
    (definitionOf op).OperandWidths = [] ∨
    (definitionOf op).OperandWidths = [1] ∨
    (definitionOf op).OperandWidths = [2] := by
  cases op <;> simp [definitionOf]

theorem readOperandsGo_encode_one (w o : Nat) (hw : w = 1 ∨ w = 2)
    (hb : o < 2 ^ (8 * w)) :
    readOperandsGo [w] (encodeOperands [w] [o]) = some ([o], w) := by
  rcases hw with rfl | rfl
  · have : o % 256 = o := Nat.mod_eq_of_lt (by norm_num at hb ⊢; omega)
    simp [readOperandsGo, encodeOperands, putBytes, ReadUInt8, this]
  · have h65536 : o % 65536 = o := Nat.mod_eq_of_lt (by norm_num at hb ⊢; omega)
    simp only [encodeOperands, putBytes, h65536, List.append_nil,
      readOperandsGo, ReadUInt16]
    have : o / 256 * 256 + o % 256 = o := by omega
    simp [this, readOperandsGo]

/-! ## Claim theorems -/

/-- Claim C6: for every opcode that has a definition and every operand list
matching the declared widths, with each operand within its declared width,
`ReadOperands` applied to the bytes of `Make` without the opcode byte
recovers exactly the original operands, and 1 plus the returned bytesRead
equals the length of the encoded instruction. -/
theorem make_readOperands_roundtrip (op : Opcode) (operands : List Nat)
    (hlen : operands.length = (definitionOf op).OperandWidths.length)
    (hbound : List.Forall₂ (fun o w => o < 2 ^ (8 * w)) operands
      (definitionOf op).OperandWidths) :
    ReadOperands (definitionOf op) ((Make op.toByte operands).drop 1)
      = some (operands, (definitionOf op).OperandWidths.sum)
    ∧ 1 + (definitionOf op).OperandWidths.sum = (Make op.toByte operands).length := by
  have hmk : Make op.toByte operands
      = op.toByte :: encodeOperands (definitionOf op).OperandWidths operands := by
    unfold Make
    rw [lookupDefinition_toByte]
  rcases operandWidths_shape op with hw | hw | hw
  · rw [hw] at hlen hbound ⊢
    match operands, hlen with
    | [], _ =>
      rw [hmk, hw]
      exact ⟨by simp [ReadOperands, hw, readOperandsGo], by simp [encodeOperands]⟩
  · rw [hw] at hlen hbound ⊢
    match operands, hlen with
    | [o], _ =>
      have hb : o < 2 ^ (8 * 1) := by
        cases hbound with
        | cons h _ => exact h
      rw [hmk, hw]
      refine ⟨?_, ?_⟩
      · simpa [ReadOperands, hw] using readOperandsGo_encode_one 1 o (Or.inl rfl) hb
      · simp [encodeOperands, putBytes]
  · rw [hw] at hlen hbound ⊢
    match operands, hlen with
    | [o], _ =>
      have hb : o < 2 ^ (8 * 2) := by
        cases hbound with
        | cons h _ => exact h
      rw [hmk, hw]
      refine ⟨?_, ?_⟩
      · simpa [ReadOperands, hw] using readOperandsGo_encode_one 2 o (Or.inr rfl) hb
      · simp [encodeOperands, putBytes]

/-- Claim C6 witness: the round trip at `OpConstant` with operand 65534. -/
theorem make_readOperands_roundtrip_witness :
    ReadOperands (definitionOf .OpConstant) ((Make Opcode.OpConstant.toByte [65534]).drop 1)
      = some ([65534], (definitionOf .OpConstant).OperandWidths.sum)
    ∧ 1 + (definitionOf .OpConstant).OperandWidths.sum
      = (Make Opcode.OpConstant.toByte [65534]).length :=
  make_readOperands_roundtrip .OpConstant [65534] (by decide)
    (.cons (by norm_num) .nil)

/-- Claim C10: `Make` never fails on an operand that exceeds its declared
width — the encoding only depends on each operand modulo `2^(8·width)`, and
the instruction always has its full length `1 + Σ widths`. -/
theorem make_encodes_mod_width (op : Opcode) (operands : List Nat)
    (hlen : operands.length = (definitionOf op).OperandWidths.length) :
    Make op.toByte operands
      = Make op.toByte (List.zipWith (fun o w => o % 2 ^ (8 * w)) operands
          (definitionOf op).OperandWidths)
    ∧ (Make op.toByte operands).length = 1 + (definitionOf op).OperandWidths.sum := by
  have hmk : ∀ os, Make op.toByte os
      = op.toByte :: encodeOperands (definitionOf op).OperandWidths os := by
    intro os
    unfold Make
    rw [lookupDefinition_toByte]
  rcases operandWidths_shape op with hw | hw | hw
  · rw [hw] at hlen ⊢
    match operands, hlen with
    | [], _ => exact ⟨rfl, by rw [hmk, hw]; rfl⟩
  · rw [hw] at hlen ⊢
    match operands, hlen with
    | [o], _ =>
      refine ⟨?_, ?_⟩
      · rw [hmk, hmk, hw]
        have h1 : o % 2 ^ (8 * 1) % 256 = o % 256 := by
          simp only [show (2:Nat) ^ (8 * 1) = 256 by norm_num]
          omega
        simp [List.zipWith, encodeOperands, putBytes, h1]
      · rw [hmk, hw]
        simp [encodeOperands, putBytes]
  · rw [hw] at hlen ⊢
    match operands, hlen with
    | [o], _ =>
      refine ⟨?_, ?_⟩
      · rw [hmk, hmk, hw]
        have h2 : o % 2 ^ (8 * 2) % 65536 = o % 65536 := by
          simp only [show (2:Nat) ^ (8 * 2) = 65536 by norm_num]
          omega
        simp [List.zipWith, encodeOperands, putBytes, h2]
      · rw [hmk, hw]
        simp [encodeOperands, putBytes]

/-- Claim C10 witness: a 2-byte operand of 65536 encodes to the same bytes
as 0 and the instruction keeps its full 3-byte length. -/
theorem make_encodes_mod_width_witness :
    Make Opcode.OpConstant.toByte [65536]
      = Make Opcode.OpConstant.toByte (List.zipWith (fun o w => o % 2 ^ (8 * w)) [65536]
          (definitionOf .OpConstant).OperandWidths)
    ∧ (Make Opcode.OpConstant.toByte [65536]).length
      = 1 + (definitionOf .OpConstant).OperandWidths.sum :=
  make_encodes_mod_width .OpConstant [65536] (by decide)

/-- A middle table enclosing the global one, with "x" defined (hence Local
scope). -/
def midTable : SymbolTable :=
  (Define (NewEnclosedSymbolTable NewSymbolTable) "x").2

/-- An inner table enclosing `midTable`. -/
def innerTable : SymbolTable := NewEnclosedSymbolTable midTable

/-- Claim C4 counterexample: resolving "x" from `innerTable` finds it in the
outer chain with scope Local, yet the result is returned unchanged with
scope `LOCAL` — there is no Free conversion (the source has no `DefineFree`
and no Free scope), contradicting the claim that a new Free symbol is
returned. -/
theorem resolve_free_counterexample :
    Resolve innerTable "x" = some ⟨"x", LocalScope, 0⟩
    ∧ innerTable.outerOf = some midTable
    ∧ (⟨"x", LocalScope, 0⟩ : Symbol).Scope ≠ "FREE" := by
  refine ⟨rfl, rfl, ?_⟩
  decide

/-- Claim C4 as amended: when the name is not in the inner store and the
table has an outer table, `Resolve` returns whatever the outer chain
returns, unchanged — Local (and every other) outer scope included; the
inner table records nothing (`Resolve` performs no mutation at all). -/
theorem resolve_returns_outer_symbol_unchanged (t o : SymbolTable) (name : String)
    (hstore : storeLookup name t.store = none) (houter : t.outerOf = some o) :
    Resolve t name = Resolve o name := by
  cases t with
  | root st n => simp [SymbolTable.outerOf] at houter
  | enclosed o' st n =>
    simp only [SymbolTable.outerOf, Option.some.injEq] at houter
    subst houter
    simp only [SymbolTable.store] at hstore
    simp [Resolve, hstore]

/-- Claim C4 witness: `resolve_returns_outer_symbol_unchanged` at
`innerTable`, whose store is empty and whose outer table holds "x" as a
Local. -/
theorem resolve_returns_outer_symbol_unchanged_witness :
    Resolve innerTable "x" = Resolve midTable "x" :=
  resolve_returns_outer_symbol_unchanged innerTable midTable "x" rfl rfl

/-- A compiler whose symbol table is enclosed (non-nil outer), so `Define`
yields Local-scope symbols. -/
def enclosedCompiler : Compiler :=
  { CompilerNew with symbolTable := NewEnclosedSymbolTable NewSymbolTable }

/-- Claim C5 counterexample: compiling `let x = 5` with an enclosed symbol
table defines "x" with scope `LOCAL`, yet the emitted instruction is
`OpSetGlobal` (byte 17), not `OpSetLocal` (byte 25) — the source always
emits `OpSetGlobal`. -/
theorem let_setlocal_counterexample :
    compileStmt enclosedCompiler (.letStmt "x" (.prim (.integerLit 5 "5")))
      = .ok { instructions := [0, 0, 0, 17, 0, 0]
              constants := [.Integer 5]
              lastInstruction := ⟨17, 3⟩
              previousInstruction := ⟨0, 0⟩
              symbolTable := .enclosed (.root [] 0) [("x", ⟨"x", LocalScope, 0⟩)] 1 }
    ∧ (Define (NewEnclosedSymbolTable NewSymbolTable) "x").1.Scope = LocalScope
    ∧ LocalScope ≠ GlobalScope := by
  refine ⟨rfl, rfl, ?_⟩
  decide

/-- Claim C5 as amended: compiling a `LetStatement` first compiles the
value expression, then calls `Define(name)` on the symbol table left by the
value compilation (so `let x = x` resolves the right-hand `x` against the
enclosing binding), and then always emits `OpSetGlobal` with the symbol's
index, whatever scope `Define` produced — `OpSetLocal` is never emitted. -/
theorem compile_let_value_then_define_setglobal (c c'' : Compiler) (name : String)
    (v : Expr) (h : compileStmt c (.letStmt name v) = .ok c'') :
    ∃ c', compileExpr c v = .ok c'
      ∧ c''.instructions
          = c'.instructions ++ Make 17 [(Define c'.symbolTable name).1.Index]
      ∧ c''.symbolTable = (Define c'.symbolTable name).2
      ∧ c''.constants = c'.constants := by
  simp only [compileStmt] at h
  cases hv : compileExpr c v with
  | error e => rw [hv] at h; cases h
  | ok c' =>
    rw [hv] at h
    refine ⟨c', rfl, ?_⟩
    simp only [Except.ok.injEq] at h
    subst h
    simp [emit, addInstruction, setLastInstruction]

/-- Outcome of compiling `let x = 5` from a fresh compiler. -/
def letResult : Compiler :=
  { instructions := [0, 0, 0, 17, 0, 0]
    constants := [.Integer 5]
    lastInstruction := ⟨17, 3⟩
    previousInstruction := ⟨0, 0⟩
    symbolTable := .root [("x", ⟨"x", GlobalScope, 0⟩)] 1 }

/-- Claim C5 witness: `compile_let_value_then_define_setglobal` at the
concrete statement `let x = 5` from a fresh compiler. -/
theorem compile_let_value_then_define_setglobal_witness :
    ∃ c', compileExpr CompilerNew (.prim (.integerLit 5 "5")) = .ok c'
      ∧ letResult.instructions
          = c'.instructions ++ Make 17 [(Define c'.symbolTable "x").1.Index]
      ∧ letResult.symbolTable = (Define c'.symbolTable "x").2
      ∧ letResult.constants = c'.constants :=
  compile_let_value_then_define_setglobal CompilerNew letResult "x"
    (.prim (.integerLit 5 "5")) (by rfl)

/-- Two `pairLE`-sorted permutations of each other whose key strings are
pairwise distinct are equal as lists. -/
theorem sorted_perm_distinct_eq :
    ∀ {l₁ l₂ : List (Prim × Prim)}, l₁.Perm l₂ →
      l₁.Sorted pairLE → l₂.Sorted pairLE →
      l₁.Pairwise (fun p q => primString p.1 ≠ primString q.1) → l₁ = l₂ := by
  intro l₁
  induction l₁ with
  | nil =>
    intro l₂ hp _ _ _
    exact hp.nil_eq
  | cons x xs ih =>
    intro l₂ hp hs₁ hs₂ hd
    cases l₂ with
    | nil => exact absurd hp.eq_nil (by simp)
    | cons y ys =>
      have hxy : x = y := by
        have hy : y ∈ x :: xs := hp.mem_iff.mpr (List.mem_cons_self y ys)
        have hx : x ∈ y :: ys := hp.subset (List.mem_cons_self x xs)
        rcases List.mem_cons.mp hy with h1 | h1
        · exact h1.symm
        · rcases List.mem_cons.mp hx with h2 | h2
          · exact h2
          · have r1 : pairLE x y := List.rel_of_sorted_cons hs₁ y h1
            have r2 : pairLE y x := List.rel_of_sorted_cons hs₂ x h2
            have hne : primString x.1 ≠ primString y.1 :=
              (List.pairwise_cons.mp hd).1 y h1
            exact absurd (goStringLt_connex _ _ r2 r1) hne
      subst hxy
      rw [ih hp.cons_inv hs₁.of_cons hs₂.of_cons (List.pairwise_cons.mp hd).2]

/-- Sorting is invariant under permutation of the input when the key
strings are pairwise distinct. -/
theorem insertionSort_eq_of_perm_distinct (l₁ l₂ : List (Prim × Prim))
    (hp : l₁.Perm l₂)
    (hd : l₁.Pairwise fun p q => primString p.1 ≠ primString q.1) :
    List.insertionSort pairLE l₁ = List.insertionSort pairLE l₂ := by
  have p₁ := List.perm_insertionSort pairLE l₁
  have p₂ := List.perm_insertionSort pairLE l₂
  have hsym : Symmetric fun p q : Prim × Prim =>
      primString p.1 ≠ primString q.1 := fun a b h e => h e.symm
  exact sorted_perm_distinct_eq (p₁.trans (hp.trans p₂.symm))
    (List.sorted_insertionSort pairLE l₁) (List.sorted_insertionSort pairLE l₂)
    ((p₁.pairwise_iff @hsym).mpr hd)

/-- Claim C9 as amended: compiling a hash literal from equal compiler
states yields identical results for any two iteration orders of its pairs,
provided the keys' `String()` forms are pairwise distinct.  (With duplicate
key texts the sort leaves the iteration order visible — see the
counterexample.) -/
theorem hash_literal_compile_deterministic (c : Compiler)
    (l₁ l₂ : List (Prim × Prim)) (hp : l₁.Perm l₂)
    (hd : l₁.Pairwise fun p q => primString p.1 ≠ primString q.1) :
    compileExpr c (.hashLit l₁) = compileExpr c (.hashLit l₂) := by
  simp only [compileExpr]
  rw [insertionSort_eq_of_perm_distinct l₁ l₂ hp hd, hp.length_eq]

/-- Claim C9 witness: `hash_literal_compile_deterministic` on the literal
`{5: 1, 7: 2}` presented in its two iteration orders. -/
theorem hash_literal_compile_deterministic_witness :
    compileExpr CompilerNew
        (.hashLit [(.integerLit 5 "5", .integerLit 1 "1"),
                   (.integerLit 7 "7", .integerLit 2 "2")])
      = compileExpr CompilerNew
        (.hashLit [(.integerLit 7 "7", .integerLit 2 "2"),
                   (.integerLit 5 "5", .integerLit 1 "1")]) :=
  hash_literal_compile_deterministic CompilerNew _ _ (by decide) (by decide)

/-- A compiler state with a global named "5" already defined, so that the
identifier `5` and the integer literal `5` both compile but to different
instructions, while sharing the `String()` form "5". -/
def hashCexCompiler : Compiler :=
  { CompilerNew with symbolTable := (Define NewSymbolTable "5").2 }

def hashPairsA : List (Prim × Prim) :=
  [(.identifier "5", .integerLit 1 "1"), (.integerLit 5 "5", .integerLit 2 "2")]

def hashPairsB : List (Prim × Prim) :=
  [(.integerLit 5 "5", .integerLit 2 "2"), (.identifier "5", .integerLit 1 "1")]

/-- Instructions of a compilation result. -/
def compiledInstructions : Except String Compiler → Option (List Nat)
  | .ok c => some c.instructions
  | .error _ => none

/-- Claim C9 counterexample: the same hash-literal pair multiset, compiled
from the same compiler state under two iteration orders of the node's map,
emits different instruction bytes — the keys (an identifier and an integer
literal, both printing "5") tie under the `String()` sort, so the iteration
order shows through and the claimed determinism fails. -/
theorem hash_iteration_order_counterexample :
    compiledInstructions (compileExpr hashCexCompiler (.hashLit hashPairsA))
      = some [16, 0, 0, 0, 0, 0, 0, 0, 1, 0, 0, 2, 19, 0, 4]
    ∧ compiledInstructions (compileExpr hashCexCompiler (.hashLit hashPairsB))
      = some [0, 0, 0, 0, 0, 1, 16, 0, 0, 0, 0, 2, 19, 0, 4]
    ∧ ([16, 0, 0, 0, 0, 0, 0, 0, 1, 0, 0, 2, 19, 0, 4] : List Nat)
      ≠ [0, 0, 0, 0, 0, 1, 16, 0, 0, 0, 0, 2, 19, 0, 4]
    ∧ hashPairsA.Perm hashPairsB := by
  refine ⟨rfl, rfl, by decide, by decide⟩

/-- OpCall counterexample state: about to execute `OpCall 1`; the top of
stack is a compiled function, below it an integer. -/
def opCallCexState : VMState :=
  { constants := [], globals := []
    stack := some (.Integer 9) :: some (.compiledFunction [15])
      :: List.replicate 2044 none
    sp := 2
    frames := some ⟨[21, 1], -1⟩ :: List.replicate 1023 none
    framesIndex := 1 }

/-- The state after `runStep` on `opCallCexState`. -/
def opCallCexAfter : VMState :=
  { constants := [], globals := []
    stack := some (.Integer 9) :: some (.compiledFunction [15])
      :: List.replicate 2044 none
    sp := 2
    frames := some ⟨[21, 1], 0⟩ :: some ⟨[15], -1⟩ :: List.replicate 1022 none
    framesIndex := 2 }

/-- Claim C1 counterexample: executing `OpCall` with operand N = 1, the
slot `stack[sp-1-N]` named by the claim holds `Integer 9` — per the claim
the call would be a "calling non-function" runtime error — yet the VM reads
the callee from `stack[sp-1]`, pushes a frame with no arity check and no
base pointer, leaves `sp` unchanged, and reports no error. -/
theorem opCall_claim_counterexample :
    runStep opCallCexState = .next opCallCexAfter
    ∧ listGet opCallCexState.stack ((opCallCexState.sp : Int) - 1 - 1)
      = some (some (.Integer 9))
    ∧ opCallCexAfter.sp = opCallCexState.sp
    ∧ opCallCexAfter.framesIndex = opCallCexState.framesIndex + 1 :=
  ⟨rfl, rfl, rfl, rfl⟩

/-- Claim C1 as amended: when the VM executes `OpCall` it ignores the
operand byte and reads the callee from `stack[sp-1]`; if that value is a
compiled function it pushes a new frame `{fn, ip = -1}` — no arity check,
no base pointer, `sp` unchanged — and otherwise it returns the runtime
error "calling non-function". -/
theorem opCall_reads_top_of_stack (s : VMState) :
    (∀ ins, listGet s.stack ((s.sp : Int) - 1)
        = some (some (.compiledFunction ins)) →
      s.framesIndex < s.frames.length →
      execOpCall s = .next { s with
        frames := s.frames.set s.framesIndex (some ⟨ins, -1⟩)
        framesIndex := s.framesIndex + 1 })
    ∧ (∀ entry, listGet s.stack ((s.sp : Int) - 1) = some entry →
      (∀ ins, entry ≠ some (.compiledFunction ins)) →
      execOpCall s = .retErr "calling non-function") := by
  constructor
  · intro ins h hlt
    simp only [execOpCall, h, pushFrame, NewFrame, listSet_of_lt _ _ _ hlt,
      propagate]
  · intro entry h hne
    cases entry with
    | none => simp only [execOpCall, h]
    | some v =>
      cases v <;> first
        | exact absurd rfl (hne _)
        | simp only [execOpCall, h]

/-- Small state for the OpCall witness: callee on top of a one-slot
stack. -/
def opCallWitState : VMState :=
  { constants := [], globals := []
    stack := [some (.compiledFunction [15])]
    sp := 1
    frames := [some ⟨[21], 0⟩, none]
    framesIndex := 1 }

/-- Claim C1 witness: `opCall_reads_top_of_stack` at concrete states, for
both the compiled-function and the non-function callee. -/
theorem opCall_reads_top_of_stack_witness :
    execOpCall opCallWitState = .next { opCallWitState with
      frames := opCallWitState.frames.set 1 (some ⟨[15], -1⟩)
      framesIndex := 2 }
    ∧ execOpCall { opCallWitState with stack := [some (.Integer 3)] }
      = .retErr "calling non-function" := by
  constructor
  · exact (opCall_reads_top_of_stack opCallWitState).1 [15] rfl (by decide)
  · exact (opCall_reads_top_of_stack _).2 (some (.Integer 3)) rfl
      (fun ins => by simp)

/-- Bytecode of the program `true > true`. -/
def cmpBugProgram : Bytecode := ⟨[6, 6, 10], []⟩

/-- The VM state at the moment `OpGreaterThan` of `cmpBugProgram` is
dispatched: two canonical `True`s on the stack. -/
def cmpBugState : VMState :=
  { constants := []
    stack := some (.Boolean true) :: some (.Boolean true)
      :: List.replicate 2044 none
    sp := 2
    globals := List.replicate GlobalsSize none
    frames := some ⟨[6, 6, 10], 2⟩ :: List.replicate 1023 none
    framesIndex := 1 }

/-- Claim C2: the comparison handler rejects `OpGreaterThan` on two
booleans with an unknown-operator error, yet `Run` on the program
`true > true` completes with a nil error: the dispatch branch for
`OpEqual`/`OpNotEqual`/`OpGreaterThan` contains `return nil` where the
handler's error should be returned, so the error is swallowed — the code
contradicts `Run`'s own documentation ("If an error occurs during
execution, it is returned") and the claim. -/
theorem comparison_error_swallowed :
    run 10 (VMNew cmpBugProgram) = .done
    ∧ executeComparisonOperation cmpBugState 10
      = .err "unknown operator: 10 (BOOLEAN BOOLEAN)" :=
  ⟨rfl, rfl⟩

/-- Bytecode of the program `1 / 0`. -/
def divZeroProgram : Bytecode :=
  ⟨[0, 0, 0, 0, 0, 1, 3], [.Integer 1, .Integer 0]⟩

/-- An empty VM state for handler-level statements. -/
def emptyState : VMState := ⟨[], [], 0, [], [], 0⟩

/-- Claim C3 counterexample: `OpDiv` on `1` and `0` does not return a
runtime error to the caller — the Go runtime panics (integer divide by
zero), both at the handler and for the whole `Run` of `1 / 0`; the source
has no divisor check. -/
theorem opDiv_zero_counterexample :
    run 10 (VMNew divZeroProgram) = .crashed "integer divide by zero"
    ∧ executeBinaryIntegerOperation emptyState 3 1 0
      = .crash "integer divide by zero" :=
  ⟨rfl, rfl⟩

/-- The truncated quotient of two in-range `int64` values is itself in
range, except for `MinInt64 / -1` (whose exact value is `2^63`). -/
theorem tdiv_in_range (l r : Int) (hl1 : -(2 ^ 63) ≤ l) (hl2 : l < 2 ^ 63)
    (hr : r ≠ 0) (hex : ¬(l = -(2 ^ 63) ∧ r = -1)) :
    -(2 ^ 63) ≤ l.tdiv r ∧ l.tdiv r < 2 ^ 63 := by
  have habs : (l.tdiv r).natAbs = l.natAbs / r.natAbs := Int.natAbs_tdiv l r
  by_cases hr2 : 2 ≤ r.natAbs
  · have h1 : l.natAbs / r.natAbs ≤ l.natAbs / 2 :=
      Nat.div_le_div_left hr2 (by norm_num)
    have h2 : l.natAbs / 2 ≤ 2 ^ 63 / 2 := Nat.div_le_div_right (by omega)
    omega
  · have hre : r = 1 ∨ r = -1 := by omega
    rcases hre with rfl | rfl
    · rw [Int.tdiv_one]
      omega
    · have hlne : l ≠ -(2 ^ 63) := fun h => hex ⟨h, rfl⟩
      have hneg : l.tdiv (-1) = -l := by
        have := Int.tdiv_neg l 1
        rw [Int.tdiv_one] at this
        omega
      rw [hneg]
      omega

/-- Claim C3 as amended: for a nonzero right operand, `OpDiv` on two
integers pushes the truncated-toward-zero quotient computed in wrapping
`int64` arithmetic; for in-range operands the wrap is the identity — the
result is the exact truncated quotient — except at `MinInt64 / -1`, which
wraps back to `MinInt64`; for a zero right operand the Go runtime panics
instead of returning a runtime error. -/
theorem opDiv_truncates_toward_zero (s : VMState) (l r : Int) :
    (r ≠ 0 → s.sp < StackSize → s.sp < s.stack.length →
      executeBinaryIntegerOperation s 3 l r
        = .ok { s with
            stack := s.stack.set s.sp (some (.Integer (wrap64 (l.tdiv r))))
            sp := s.sp + 1 })
    ∧ (-(2 ^ 63) ≤ l → l < 2 ^ 63 → r ≠ 0 → ¬(l = -(2 ^ 63) ∧ r = -1) →
        wrap64 (l.tdiv r) = l.tdiv r)
    ∧ wrap64 (Int.tdiv (-(2 ^ 63)) (-1)) = -(2 ^ 63)
    ∧ executeBinaryIntegerOperation s 3 l 0 = .crash "integer divide by zero" := by
  refine ⟨?_, ?_, ?_, ?_⟩
  · intro hr h1 h2
    unfold executeBinaryIntegerOperation
    rw [if_neg hr]
    exact push_ok s _ h1 h2
  · intro hl1 hl2 hr hex
    have hq := tdiv_in_range l r hl1 hl2 hr hex
    unfold wrap64
    omega
  · decide
  · rfl

/-- One-slot state for handler witnesses. -/
def oneSlotState : VMState := ⟨[], [none], 0, [], [], 0⟩

/-- Claim C3 witness: `opDiv_truncates_toward_zero` at `-7 / 2` (handler
pushes the wrapped quotient), at the in-range operands `-7` and `2` (the
wrap is the identity, so the quotient is the truncated `-3`), and at
`-7 / 0` (panic). -/
theorem opDiv_truncates_toward_zero_witness :
    executeBinaryIntegerOperation oneSlotState 3 (-7) 2
      = .ok { oneSlotState with stack := [none].set 0 (some (.Integer (-3)))
                                sp := 1 }
    ∧ wrap64 (Int.tdiv (-7) 2) = Int.tdiv (-7) 2
    ∧ executeBinaryIntegerOperation oneSlotState 3 (-7) 0
      = .crash "integer divide by zero" := by
  refine ⟨?_, ?_, ?_⟩
  · exact (opDiv_truncates_toward_zero oneSlotState (-7) 2).1 (by decide)
      (by decide) (by decide)
  · exact (opDiv_truncates_toward_zero oneSlotState (-7) 2).2.1 (by decide)
      (by decide) (by decide) (by decide)
  · exact (opDiv_truncates_toward_zero oneSlotState (-7) 0).2.2.2

/-- Claim C7 as amended: pushing past `StackSize` on the value stack is a
checked runtime error ("stack overflow"), and a successful push keeps
`sp ≤ StackSize`; pushing a frame at a full frame stack, however, is an
unchecked write that panics (index out of range) instead of returning a
runtime error. -/
theorem stack_checked_frames_unchecked (s : VMState) (o : Option Value) (f : Frame) :
    (StackSize ≤ s.sp → push s o = .err "stack overflow")
    ∧ (s.sp < StackSize → s.sp < s.stack.length →
        push s o = .ok { s with stack := s.stack.set s.sp o, sp := s.sp + 1 }
        ∧ s.sp + 1 ≤ StackSize)
    ∧ (s.frames.length ≤ s.framesIndex →
        pushFrame s f = .crash "index out of range")
    ∧ (s.framesIndex < s.frames.length →
        pushFrame s f = .ok { s with
          frames := s.frames.set s.framesIndex (some f)
          framesIndex := s.framesIndex + 1 }) := by
  refine ⟨?_, ?_, ?_, ?_⟩
  · intro h
    unfold push
    rw [if_pos h]
  · intro h1 h2
    exact ⟨push_ok s o h1 h2, by omega⟩
  · intro h
    unfold pushFrame
    rw [listSet_of_ge _ _ _ h]
  · intro h
    unfold pushFrame
    rw [listSet_of_lt _ _ _ h]

/-- A VM state whose frame stack is full (`framesIndex = MaxFrames`). -/
def framesFullState : VMState :=
  ⟨[], [], 0, [], List.replicate MaxFrames none, MaxFrames⟩

/-- Claim C7 counterexample: with the frame stack full, `pushFrame` panics
with an index-out-of-range crash — the attempt to exceed `MaxFrames` is
not surfaced as a runtime error returned to the caller of `Run`. -/
theorem frame_overflow_counterexample :
    pushFrame framesFullState (NewFrame []) = .crash "index out of range"
    ∧ framesFullState.framesIndex = MaxFrames
    ∧ framesFullState.frames.length = MaxFrames :=
  ⟨rfl, rfl, by simp [framesFullState]⟩

/-- Claim C7 witness: `stack_checked_frames_unchecked` at concrete states
for all four conjuncts. -/
theorem stack_checked_frames_unchecked_witness :
    push ⟨[], [], 2046, [], [], 0⟩ none = .err "stack overflow"
    ∧ (push oneSlotState none
        = .ok { oneSlotState with stack := [none].set 0 none, sp := 1 }
        ∧ 0 + 1 ≤ StackSize)
    ∧ pushFrame ⟨[], [], 0, [], [], 5⟩ (NewFrame []) = .crash "index out of range"
    ∧ pushFrame ⟨[], [], 0, [], [none], 0⟩ (NewFrame [])
        = .ok { (⟨[], [], 0, [], [none], 0⟩ : VMState) with
            frames := [none].set 0 (some (NewFrame []))
            framesIndex := 1 } := by
  refine ⟨?_, ?_, ?_, ?_⟩
  · exact (stack_checked_frames_unchecked ⟨[], [], 2046, [], [], 0⟩ none
      (NewFrame [])).1 (by decide)
  · exact (stack_checked_frames_unchecked oneSlotState none (NewFrame [])).2.1
      (by decide) (by decide)
  · exact (stack_checked_frames_unchecked ⟨[], [], 0, [], [], 5⟩ none
      (NewFrame [])).2.2.1 (by decide)
  · exact (stack_checked_frames_unchecked ⟨[], [], 0, [], [none], 0⟩ none
      (NewFrame [])).2.2.2 (by decide)

/-- Claim C8: indexing an array with an integer index that is negative or
past the last element pushes Null and returns no error, and indexing a
hash with a hashable key absent from its pairs pushes Null and returns no
error. -/
theorem index_misses_push_null (s₁ s₂ : VMState)
    (elements : List (Option Value)) (i : Int)
    (pairs : List (HashKey × Option Value × Option Value)) (v : Value)
    (hk : HashKey) :
    ((i < 0 ∨ (elements.length : Int) ≤ i) →
      s₁.sp < StackSize → s₁.sp < s₁.stack.length →
      executeArrayIndex s₁ elements i
        = .ok { s₁ with stack := s₁.stack.set s₁.sp (some .Null)
                        sp := s₁.sp + 1 })
    ∧ (hashKeyOf v = some hk → pairsLookup hk pairs = none →
      s₂.sp < StackSize → s₂.sp < s₂.stack.length →
      executeHashIndex s₂ pairs (some v)
        = .ok { s₂ with stack := s₂.stack.set s₂.sp (some .Null)
                        sp := s₂.sp + 1 }) := by
  constructor
  · intro hi h1 h2
    unfold executeArrayIndex
    rw [if_pos (by omega)]
    exact push_ok s₁ _ h1 h2
  · intro hv hl h1 h2
    simp only [executeHashIndex, hv, hl]
    exact push_ok s₂ _ h1 h2

/-- Claim C8 witness: `index_misses_push_null` at an out-of-range array
index and at a missing hash key. -/
theorem index_misses_push_null_witness :
    executeArrayIndex oneSlotState [some (.Integer 1)] 5
      = .ok { oneSlotState with stack := [none].set 0 (some .Null), sp := 1 }
    ∧ executeHashIndex oneSlotState
        [(.intKey 1, some (.Integer 1), some (.Integer 2))] (some (.Integer 9))
      = .ok { oneSlotState with stack := [none].set 0 (some .Null), sp := 1 } := by
  constructor
  · exact (index_misses_push_null oneSlotState oneSlotState [some (.Integer 1)]
      5 [] (.Integer 0) (.intKey 0)).1 (by norm_num) (by decide) (by decide)
  · exact (index_misses_push_null oneSlotState oneSlotState [] 0
      [(.intKey 1, some (.Integer 1), some (.Integer 2))] (.Integer 9)
      (.intKey 9)).2 rfl rfl (by decide) (by decide)

end Orion
